import Mathlib

/-!
# Verification of the turtle renderer server's request-dispatch core

This development embeds `src/renderer_server.rs`: the request-serving loop
`serve` and the per-request task `run_request`, together with an operational
model of the dispatcher / ordering-token protocol and of the spec-described
state-mutating handler pipeline.

Conventions:
* Pure decision code (the `select` at the top of `serve`, the outcome match at
  the bottom of `run_request`) is embedded as Lean functions over inductive
  types mirroring the Rust enums.
* The concurrent behaviour of the loop (spawned tasks, the oneshot ordering
  token, the event queue) is embedded as a small-step transition relation
  `AStep` over configurations `SConfig`; interleaving is nondeterministic.
* The handler bodies live in the `handlers` module which is not part of the
  sources under verification; where their behaviour is needed it is modelled
  from the spec and marked `Modelled from the spec:`.
-/

namespace turtle

/-- Client identifier from the IPC layer; opaque here, it only routes replies. -/
abbrev ClientId := Nat

/-- Modelled from the spec: turtle identifier (`app::TurtleId`, module not in
    the sources); an opaque identity for a live turtle. -/
abbrev TurtleId := Nat

/-- Modelled from the spec: filesystem path for export requests; opaque. -/
abbrev ExportPath := String

/-- Modelled from the spec: export format selector (`ExportFormat`). -/
inductive ExportFormat
  | Svg
deriving DecidableEq

/-- Modelled from the spec: drawing property selector; opaque placeholder. -/
abbrev DrawingPropSel := Nat

/-- Modelled from the spec: drawing property value; opaque placeholder. -/
abbrev DrawingPropVal := Nat

/-- Modelled from the spec: turtle property selector; opaque placeholder. -/
abbrev TurtlePropSel := Nat

/-- Modelled from the spec: turtle property value; opaque placeholder. -/
abbrev TurtlePropVal := Nat

/-- Modelled from the spec: a move distance; `f64` in the source, an `Int`
    placeholder here since no claim inspects distances. -/
abbrev Distance := Int

/-- Modelled from the spec: a target position (`f64` pair in the source). -/
structure Point where
  x : Int
  y : Int
deriving DecidableEq

/-- Modelled from the spec: a rotation angle; `f64` radians in the source. -/
abbrev Angle := Int

/-- Modelled from the spec: rotation direction selector. -/
inductive RotationDirection
  | Clockwise
  | Counterclockwise
deriving DecidableEq

/-- The request enum `crate::ipc_protocol::ClientRequest`: its constructors and
    arities are exactly those matched by `run_request`
    (src/renderer_server.rs lines 103-167). -/
inductive ClientRequest
  | CreateTurtle
  | Export (path : ExportPath) (format : ExportFormat)
  | PollEvent
  | DrawingProp (prop : DrawingPropSel)
  | SetDrawingProp (prop_value : DrawingPropVal)
  | ResetDrawingProp (prop : DrawingPropSel)
  | TurtleProp (id : TurtleId) (prop : TurtlePropSel)
  | SetTurtleProp (id : TurtleId) (prop_value : TurtlePropVal)
  | ResetTurtleProp (id : TurtleId) (prop : TurtlePropSel)
  | ResetTurtle (id : TurtleId)
  | MoveForward (id : TurtleId) (distance : Distance)
  | MoveTo (id : TurtleId) (target_pos : Point)
  | RotateInPlace (id : TurtleId) (angle : Angle) (direction : RotationDirection)
  | BeginFill (id : TurtleId)
  | EndFill (id : TurtleId)
  | ClearAll
  | ClearTurtle (id : TurtleId)
deriving DecidableEq

/-- Whether `run_request` passes the ordering-token sender `data_req_queued`
    to the handler for this request kind.  Read off the match in
    src/renderer_server.rs lines 103-167: every arm forwards `data_req_queued`
    to its handler except `CreateTurtle` (line 105) and `PollEvent`
    (line 118). -/
def tokenPassedToHandler : ClientRequest → Bool
  | .CreateTurtle => false
  | .Export _ _ => true
  | .PollEvent => false
  | .DrawingProp _ => true
  | .SetDrawingProp _ => true
  | .ResetDrawingProp _ => true
  | .TurtleProp _ _ => true
  | .SetTurtleProp _ _ => true
  | .ResetTurtleProp _ _ => true
  | .ResetTurtle _ => true
  | .MoveForward _ _ => true
  | .MoveTo _ _ => true
  | .RotateInPlace _ _ _ => true
  | .BeginFill _ => true
  | .EndFill _ => true
  | .ClearAll => true
  | .ClearTurtle _ => true

/-- The error enum `handlers::HandlerError` of the handlers module; its two
    constructors are the ones matched in src/renderer_server.rs lines 169-178.
    Payloads are opaque strings here. -/
inductive HandlerError
  | IpcChannelError (err : String)
  | EventLoopClosed (err : Unit)
deriving DecidableEq

instance : DecidableEq (Except HandlerError Unit) := fun a b =>
  match a, b with
  | .ok (), .ok () => isTrue rfl
  | .error e1, .error e2 =>
    if h : e1 = e2 then isTrue (by rw [h]) else
      isFalse (by intro hc; cases hc; exact h rfl)
  | .ok (), .error _ => isFalse (by intro hc; cases hc)
  | .error _, .ok () => isFalse (by intro hc; cases hc)

/-- How a `run_request` task ends: a normal return, or a panic of that task. -/
inductive TaskTermination
  | normal
  | panicked (msg : String)
deriving DecidableEq

/-- The outcome match at the bottom of `run_request`
    (src/renderer_server.rs lines 169-179): `Ok(())` returns normally,
    `IpcChannelError` panics the task with the serialization message, and
    `EventLoopClosed` is swallowed (normal return). -/
def run_request_outcome : Except HandlerError Unit → TaskTermination
  | .ok () => .normal
  | .error (.IpcChannelError err) =>
    .panicked ("Error while serializing response: " ++ err)
  | .error (.EventLoopClosed _) => .normal

/-- The `ipc_channel` receive error, as matched in `serve`
    (src/renderer_server.rs lines 59-64): `Disconnected` is distinguished
    from the other variants (`Bincode`, `Io`). -/
inductive IpcError
  | Bincode (e : String)
  | IoError (e : String)
  | Disconnected
deriving DecidableEq

/-- Debug rendering of an `IpcError`, standing in for the `{:?}` formatting
    used by the panic message in `serve`. -/
def ipcErrorMsg : IpcError → String
  | .Bincode e => "Bincode(" ++ e ++ ")"
  | .IoError e => "Io(" ++ e ++ ")"
  | .Disconnected => "Disconnected"

/-- The two arms of the `tokio::select!` at the top of `serve`
    (src/renderer_server.rs lines 54-65): either the shutdown receiver
    resolves (`some ()` when the main thread sent the signal, `none` when the
    sender was dropped), or the IPC receive resolves. -/
inductive SelectArm
  | shutdown (msg : Option Unit)
  | request (req : Except IpcError (ClientId × ClientRequest))

/-- The control decision one iteration head of `serve` takes. -/
inductive LoopControl
  | breakLoop
  | panicLoop (msg : String)
  | dispatch (client_id : ClientId) (request : ClientRequest)
deriving DecidableEq

/-- The select at the top of `serve` (src/renderer_server.rs lines 52-65),
    reduced to a control decision: any shutdown resolution breaks the loop,
    a received request is dispatched, `IpcError::Disconnected` breaks the
    loop, and every other receive error panics. -/
def serve_select : SelectArm → LoopControl
  | .shutdown _ => .breakLoop
  | .request (.ok (client_id, request)) => .dispatch client_id request
  | .request (.error .Disconnected) => .breakLoop
  | .request (.error e) =>
    .panicLoop ("unable to receive request from IPC client: " ++ ipcErrorMsg e)

/-- The result of `data_req_queued_receiver.await`: the handler fired the
    oneshot token, or the sender was dropped without firing. -/
inductive TokenAwaitResult
  | fired
  | senderDropped
deriving DecidableEq

/-- `data_req_queued_receiver.await.unwrap_or(())`
    (src/renderer_server.rs line 89): a dropped sender is mapped to `()`,
    exactly like a fired token, and the loop just continues. -/
def token_unwrap_or : TokenAwaitResult → Unit
  | .fired => ()
  | .senderDropped => ()

/-! ## Operational model of `serve` and its spawned `run_request` tasks

The dispatcher behaviour is read off src/renderer_server.rs lines 52-90: on
each iteration it selects between the shutdown signal and the next request;
on a request it creates a fresh oneshot token, spawns `run_request` and awaits
the token receiver (a dropped sender counts as proceed).  A spawned task is
abstracted by how many atomic suspension points its handler body has, at which
point it fires the token (only possible when `run_request` passed the sender
in), and its terminal outcome; the sender owned by the task is dropped exactly
when the task terminates, whether normally or by unwinding a panic. -/

/-- Status of a request's oneshot ordering token. -/
inductive TokenStatus
  | unfired
  | fired
  | dropped
deriving DecidableEq

/-- Modelled from the spec: the abstraction of one request's handler run (the
    handler bodies live in the missing `handlers` module).  `bodyLen` counts
    the body's atomic suspension points, `fireAt` is the body step right after
    which the token is fired (`none` when the handler never sends it), and
    `outcome` is the handler's terminal result as matched by `run_request`. -/
structure TaskSpec where
  request : ClientRequest
  bodyLen : Nat
  fireAt : Option Nat
  outcome : Except HandlerError Unit
deriving DecidableEq

/-- Well-formedness tying a task abstraction back to `run_request`: a token
    can only be fired by a handler that was actually given the sender
    (`tokenPassedToHandler`), and the firing point lies inside the body. -/
def WFSpec (s : TaskSpec) : Prop :=
  ∀ j, s.fireAt = some j → (tokenPassedToHandler s.request = true ∧ j < s.bodyLen)

/-- One spawned `run_request` task: its abstraction, its progress through the
    handler body, and its termination (`none` while still running). -/
structure RTask where
  spec : TaskSpec
  pc : Nat
  term : Option TaskTermination
deriving DecidableEq

/-- Status of the task's ordering token: `fired` once the handler has executed
    its firing step; otherwise the sender is still owned by the task and only
    the task's termination (return or panic unwind) drops it. -/
def RTask.tokenStatus (t : RTask) : TokenStatus :=
  match t.spec.fireAt with
  | some j => if j < t.pc then .fired else if t.term.isSome then .dropped else .unfired
  | none => if t.term.isSome then .dropped else .unfired

/-- Whether the task's next body step is `poll_event`'s dequeue, which blocks
    while the event queue is empty (src/renderer_server.rs line 118 together
    with the spec's Event Queue contract). -/
def RTask.wantsEvent (t : RTask) : Bool :=
  decide (t.spec.request = ClientRequest.PollEvent) && decide (t.pc = 0)

/-- The dispatcher's position inside one iteration of the serve loop. -/
inductive DispState
  | selecting
  | received (t : TaskSpec)
  | waitingOn (k : Nat)
  | stopped
deriving DecidableEq

/-- A configuration of the serving core: the requests still on the transport
    (abstracted to their task behaviour), whether shutdown has been signalled,
    the dispatcher position, the spawned tasks in spawn order, and the number
    of queued renderer events. -/
structure SConfig where
  incoming : List TaskSpec
  shutdownSignalled : Bool
  disp : DispState
  tasks : List RTask
  events : Nat
deriving DecidableEq

/-- The small-step transition relation of the serving core.  Dispatcher steps
    follow src/renderer_server.rs lines 52-90; task steps interleave
    nondeterministically with them, as tokio schedules the spawned tasks. -/
inductive AStep : SConfig → SConfig → Prop
  | recv_request (cfg : SConfig) (t : TaskSpec) (rest : List TaskSpec)
      (hin : cfg.incoming = t :: rest) (hd : cfg.disp = .selecting) :
      AStep cfg { cfg with incoming := rest, disp := .received t }
  | recv_shutdown (cfg : SConfig)
      (hs : cfg.shutdownSignalled = true) (hd : cfg.disp = .selecting) :
      AStep cfg { cfg with disp := .stopped }
  | spawn_task (cfg : SConfig) (t : TaskSpec)
      (hd : cfg.disp = .received t) :
      AStep cfg { cfg with disp := .waitingOn cfg.tasks.length,
                           tasks := cfg.tasks ++ [⟨t, 0, none⟩] }
  | token_observed (cfg : SConfig) (k : Nat) (tk : RTask)
      (hd : cfg.disp = .waitingOn k) (hk : cfg.tasks.get? k = some tk)
      (ht : tk.tokenStatus ≠ .unfired) :
      AStep cfg { cfg with disp := .selecting }
  | task_step (cfg : SConfig) (k : Nat) (tk : RTask)
      (hk : cfg.tasks.get? k = some tk) (hrun : tk.term = none)
      (hpc : tk.pc < tk.spec.bodyLen)
      (hev : tk.wantsEvent = true → 0 < cfg.events) :
      AStep cfg { cfg with
        tasks := cfg.tasks.set k { tk with pc := tk.pc + 1 },
        events := if tk.wantsEvent then cfg.events - 1 else cfg.events }
  | task_return (cfg : SConfig) (k : Nat) (tk : RTask)
      (hk : cfg.tasks.get? k = some tk) (hrun : tk.term = none)
      (hpc : tk.pc = tk.spec.bodyLen) :
      AStep cfg { cfg with
        tasks := cfg.tasks.set k
          { tk with term := some (run_request_outcome tk.spec.outcome) } }

/-- Executable check that some transition is enabled at a configuration. -/
def stepEnabled (cfg : SConfig) : Bool :=
  (match cfg.disp with
   | .selecting => (!cfg.incoming.isEmpty) || cfg.shutdownSignalled
   | .received _ => true
   | .waitingOn k =>
     match cfg.tasks.get? k with
     | some tk => decide (tk.tokenStatus ≠ .unfired)
     | none => false
   | .stopped => false)
  || cfg.tasks.any (fun tk =>
       decide (tk.term = none)
       && (decide (tk.pc < tk.spec.bodyLen)
             && (!tk.wantsEvent || decide (0 < cfg.events))
           || decide (tk.pc = tk.spec.bodyLen)))

/-- Soundness of `stepEnabled`: every transition implies the check. -/
theorem stepEnabled_of_step {cfg cfg' : SConfig} (h : AStep cfg cfg') :
    stepEnabled cfg = true := by
  cases h with
  | recv_request t rest hin hd =>
    simp [stepEnabled, hd, hin]
  | recv_shutdown hs hd =>
    simp [stepEnabled, hd, hs]
  | spawn_task t hd =>
    simp [stepEnabled, hd]
  | token_observed k tk hd hk ht =>
    rw [List.get?_eq_getElem?] at hk
    simp [stepEnabled, hd, hk, ht]
  | task_step k tk hk hrun hpc hev =>
    have hmem : tk ∈ cfg.tasks := List.get?_mem hk
    simp only [stepEnabled, Bool.or_eq_true]
    refine Or.inr (List.any_eq_true.mpr ⟨tk, hmem, ?_⟩)
    by_cases hw : tk.wantsEvent = true
    · simp [hrun, hpc, hw, hev hw]
    · simp only [Bool.not_eq_true] at hw
      simp [hrun, hpc, hw]
  | task_return k tk hk hrun hpc =>
    have hmem : tk ∈ cfg.tasks := List.get?_mem hk
    simp only [stepEnabled, Bool.or_eq_true]
    exact Or.inr (List.any_eq_true.mpr ⟨tk, hmem, by simp [hrun, hpc]⟩)

/-- A configuration where `stepEnabled` is false is stuck: no transition. -/
theorem stuck_of_not_stepEnabled {cfg : SConfig} (h : stepEnabled cfg = false)
    {cfg' : SConfig} (hs : AStep cfg cfg') : False := by
  rw [stepEnabled_of_step hs] at h
  cases h

/-- A terminated task has dropped (or long fired) its sender: the token of a
    task with `term.isSome` is never `unfired`. -/
theorem tokenStatus_ne_unfired_of_term {t : RTask} (h : t.term.isSome = true) :
    t.tokenStatus ≠ TokenStatus.unfired := by
  unfold RTask.tokenStatus
  cases hf : t.spec.fireAt with
  | none => simp [h]
  | some j => by_cases hj : j < t.pc <;> simp [hj, h]

/-- A task whose handler never got the sender can never fire the token. -/
theorem tokenStatus_ne_fired_of_fireAt_none {t : RTask}
    (h : t.spec.fireAt = none) : t.tokenStatus ≠ TokenStatus.fired := by
  unfold RTask.tokenStatus
  rw [h]
  by_cases ht : t.term.isSome <;> simp [ht]

/-- For a task that never fires, the token resolves (is not `unfired`) only
    once the task has terminated. -/
theorem term_isSome_of_tokenStatus {t : RTask} (h : t.spec.fireAt = none)
    (hs : t.tokenStatus ≠ TokenStatus.unfired) : t.term.isSome = true := by
  unfold RTask.tokenStatus at hs
  rw [h] at hs
  by_cases ht : t.term.isSome
  · exact ht
  · simp [ht] at hs

/-- A well-formed task whose request kind is not given the sender by
    `run_request` has no firing point at all. -/
theorem fireAt_none_of_no_token {s : TaskSpec} (hwf : WFSpec s)
    (h : tokenPassedToHandler s.request = false) : s.fireAt = none := by
  cases hf : s.fireAt with
  | none => rfl
  | some j =>
    rcases hwf j hf with ⟨hp, _⟩
    rw [h] at hp
    cases hp

/-- Inversion: the only step taking the dispatcher from awaiting a token back
    to the select is `token_observed`, which requires the token to be fired
    or dropped. -/
theorem wait_to_select_inv {cfg cfg' : SConfig} {k : Nat}
    (h : AStep cfg cfg') (hd : cfg.disp = DispState.waitingOn k)
    (hd' : cfg'.disp = DispState.selecting) :
    ∃ tk, cfg.tasks.get? k = some tk ∧ tk.tokenStatus ≠ TokenStatus.unfired := by
  cases h with
  | recv_request t rest hin hd2 => rw [hd] at hd2; cases hd2
  | recv_shutdown hs hd2 => rw [hd] at hd2; cases hd2
  | spawn_task t hd2 => rw [hd] at hd2; cases hd2
  | token_observed k2 tk hd2 hk ht =>
    rw [hd] at hd2
    cases hd2
    exact ⟨tk, hk, ht⟩
  | task_step k2 tk hk hrun hpc hev =>
    have h3 : cfg.disp = DispState.selecting := hd'
    rw [hd] at h3
    cases h3
  | task_return k2 tk hk hrun hpc =>
    have h3 : cfg.disp = DispState.selecting := hd'
    rw [hd] at h3
    cases h3

/-- Inversion: the loop only stops from the select position (the shutdown
    branch); no other step enters the stopped state. -/
theorem stop_only_from_select {cfg cfg' : SConfig}
    (h : AStep cfg cfg') (hd' : cfg'.disp = DispState.stopped) :
    cfg.disp = DispState.selecting ∨ cfg.disp = DispState.stopped := by
  cases h with
  | recv_request t rest hin hd =>
    have h2 : DispState.received t = DispState.stopped := hd'
    cases h2
  | recv_shutdown hs hd => exact Or.inl hd
  | spawn_task t hd =>
    have h2 : DispState.waitingOn cfg.tasks.length = DispState.stopped := hd'
    cases h2
  | token_observed k tk hd hk ht =>
    have h2 : DispState.selecting = DispState.stopped := hd'
    cases h2
  | task_step k tk hk hrun hpc hev => exact Or.inr hd'
  | task_return k tk hk hrun hpc => exact Or.inr hd'

/-- Inversion: from the received position the only dispatcher change is the
    spawn; task steps may interleave but leave the dispatcher in place. -/
theorem received_step_inv {cfg cfg' : SConfig} {t : TaskSpec}
    (h : AStep cfg cfg') (hd : cfg.disp = DispState.received t) :
    cfg'.disp = DispState.received t ∨
      (cfg'.disp = DispState.waitingOn cfg.tasks.length ∧
        cfg'.tasks = cfg.tasks ++ [⟨t, 0, none⟩]) := by
  cases h with
  | recv_request t2 rest hin hd2 => rw [hd] at hd2; cases hd2
  | recv_shutdown hs hd2 => rw [hd] at hd2; cases hd2
  | spawn_task t2 hd2 =>
    rw [hd] at hd2
    cases hd2
    exact Or.inr ⟨rfl, rfl⟩
  | token_observed k tk hd2 hk ht => rw [hd] at hd2; cases hd2
  | task_step k tk hk hrun hpc hev => exact Or.inl hd
  | task_return k tk hk hrun hpc => exact Or.inl hd

/-! ## Concrete scenarios -/

/-- A `PollEvent` request: two body steps (dequeue an event, send the reply),
    no firing point (`run_request` line 118 passes no sender), success. -/
def pollSpec : TaskSpec := ⟨.PollEvent, 2, none, .ok ()⟩

/-- A `CreateTurtle` request: one body step (allocate the turtle and reply
    under exclusive access), no firing point (`run_request` line 105 passes
    no sender), success. -/
def createSpec : TaskSpec := ⟨.CreateTurtle, 1, none, .ok ()⟩

/-- A `CreateTurtle` request whose reply serialization fails: the handler
    returns `IpcChannelError` immediately. -/
def ipcFailSpec : TaskSpec := ⟨.CreateTurtle, 0, none, .error (.IpcChannelError "os error")⟩

/-- Initial configuration of the PollEvent scenario: a poll request followed
    by another pending request, empty event queue. -/
def pollInit : SConfig := ⟨[pollSpec, createSpec], false, .selecting, [], 0⟩

/-- After receiving and spawning the poll request: the dispatcher awaits the
    token of a task that cannot advance (empty event queue). -/
def pollStuck : SConfig := ⟨[createSpec], false, .waitingOn 0, [⟨pollSpec, 0, none⟩], 0⟩

/-- C2 (code bug witness): `PollEvent` is indeed never given the ordering
    token, but the dispatch loop is throttled all the same.  Starting from
    `pollInit`, after the poll request is received and spawned the core is
    completely stuck: the poll handler cannot advance (no event is queued),
    its token is unfired (the sender is alive inside the task until
    `run_request` returns), and the dispatcher cannot read the next pending
    request — contradicting the claim (and the NOTE comment in the source)
    that a PollEvent never throttles the dispatch loop. -/
theorem C2_pollevent_blocks_dispatch :
    tokenPassedToHandler ClientRequest.PollEvent = false
    ∧ Relation.ReflTransGen AStep pollInit pollStuck
    ∧ pollStuck.disp = DispState.waitingOn 0
    ∧ pollStuck.tasks = [⟨pollSpec, 0, none⟩]
    ∧ RTask.tokenStatus ⟨pollSpec, 0, none⟩ = TokenStatus.unfired
    ∧ pollStuck.incoming = [createSpec]
    ∧ stepEnabled pollStuck = false := by
  refine ⟨rfl, ?_, rfl, rfl, rfl, rfl, by decide⟩
  exact Relation.ReflTransGen.head
    (AStep.recv_request pollInit pollSpec [createSpec] rfl rfl)
    (Relation.ReflTransGen.head (AStep.spawn_task _ pollSpec rfl)
      Relation.ReflTransGen.refl)

/-- C9: `CreateTurtle` and `PollEvent` handlers are invoked without the token
    sender, so the sender lives inside the task until `run_request` returns;
    consequently the dispatcher's await on the token receiver completes only
    after that request's whole pipeline (handler, reply, outcome handling)
    has terminated. -/
theorem C9_no_token_handlers_hold_dispatcher :
    tokenPassedToHandler ClientRequest.CreateTurtle = false
    ∧ tokenPassedToHandler ClientRequest.PollEvent = false
    ∧ ∀ cfg cfg' : SConfig, ∀ k : Nat, ∀ tk : RTask,
        AStep cfg cfg' → cfg.disp = DispState.waitingOn k →
        cfg.tasks.get? k = some tk → WFSpec tk.spec →
        tokenPassedToHandler tk.spec.request = false →
        cfg'.disp = DispState.selecting → tk.term.isSome = true := by
  refine ⟨rfl, rfl, ?_⟩
  intro cfg cfg' k tk hstep hd hk hwf hnt hd'
  obtain ⟨tk2, hk2, ht2⟩ := wait_to_select_inv hstep hd hd'
  rw [hk] at hk2
  cases hk2
  exact term_isSome_of_tokenStatus (fireAt_none_of_no_token hwf hnt) ht2

/-- A configuration whose only task is a finished `CreateTurtle` run, with the
    dispatcher still awaiting that request's token. -/
def createDoneCfg : SConfig :=
  ⟨[], false, .waitingOn 0, [⟨createSpec, 1, some .normal⟩], 0⟩

/-- C9 witness: at `createDoneCfg` the dispatcher's proceed step exists and
    the theorem yields that the task had terminated. -/
theorem C9_no_token_handlers_hold_dispatcher_witness :
    (⟨createSpec, 1, some TaskTermination.normal⟩ : RTask).term.isSome = true :=
  C9_no_token_handlers_hold_dispatcher.2.2 createDoneCfg
    { createDoneCfg with disp := DispState.selecting } 0
    ⟨createSpec, 1, some TaskTermination.normal⟩
    (AStep.token_observed createDoneCfg 0 ⟨createSpec, 1, some .normal⟩ rfl rfl
      (by decide))
    rfl rfl (fun j h => Option.noConfusion h) rfl rfl

/-- Initial configuration of the CreateTurtle scenario: one create request. -/
def createInit : SConfig := ⟨[createSpec], false, .selecting, [], 0⟩

/-- CreateTurtle scenario after the handler body has fully run (the turtle
    allocation is committed and the reply sent) but `run_request` has not yet
    returned: the token is still unfired. -/
def createMid : SConfig := ⟨[], false, .waitingOn 0, [⟨createSpec, 1, none⟩], 0⟩

/-- CreateTurtle scenario after `run_request` returned: only now is the token
    sender dropped. -/
def createFin : SConfig :=
  ⟨[], false, .waitingOn 0, [⟨createSpec, 1, some .normal⟩], 0⟩

/-- Initial configuration of the reply-serialization-failure scenario: a
    request whose reply serialization fails, then another pending request. -/
def ipcFailInit : SConfig := ⟨[ipcFailSpec, createSpec], false, .selecting, [], 0⟩

/-- Reply-serialization-failure scenario after the failing task panicked and
    the dispatcher went on to receive and spawn the next request. -/
def ipcFailFin : SConfig :=
  ⟨[], false, .waitingOn 1,
    [⟨ipcFailSpec, 0,
       some (.panicked ("Error while serializing response: " ++ "os error"))⟩,
     ⟨createSpec, 0, none⟩], 0⟩

/-- A configuration whose only task has already panicked, dispatcher awaiting
    that request's token. -/
def ipcPanicCfg : SConfig :=
  ⟨[createSpec], false, .waitingOn 0,
    [⟨ipcFailSpec, 0, some (.panicked "boom")⟩], 0⟩

/-- A configuration whose only task is a finished `PollEvent` run, dispatcher
    awaiting that request's (dropped) token. -/
def pollDoneCfg : SConfig :=
  ⟨[createSpec], false, .waitingOn 0, [⟨pollSpec, 2, some .normal⟩], 0⟩

/-- A configuration where a request has been received while the shutdown
    signal is already pending. -/
def shutdownRace : SConfig := ⟨[], true, .received createSpec, [], 0⟩

/-- The unique dispatcher successor of `shutdownRace`: the request is spawned
    regardless of the pending shutdown. -/
def shutdownRaceSpawned : SConfig :=
  ⟨[], true, .waitingOn 0, [⟨createSpec, 0, none⟩], 0⟩

/-- A configuration sitting at the select with shutdown signalled. -/
def stopCfg : SConfig := ⟨[], true, .selecting, [], 0⟩

/-- C3 counterexample: a complete `CreateTurtle` run in which the token never
    fires.  At `createMid` the handler body (the mutation and the reply) has
    fully executed, yet the token is still `unfired`; only when `run_request`
    returns (`createFin`) does it resolve, and it resolves to `dropped`, not
    `fired` — refuting that the token still fires once the mutation is
    committed. -/
theorem C3_counterexample :
    Relation.ReflTransGen AStep createInit createMid
    ∧ createMid.tasks = [⟨createSpec, createSpec.bodyLen, none⟩]
    ∧ RTask.tokenStatus ⟨createSpec, createSpec.bodyLen, none⟩ = TokenStatus.unfired
    ∧ Relation.ReflTransGen AStep createMid createFin
    ∧ createFin.tasks =
        [⟨createSpec, createSpec.bodyLen, some TaskTermination.normal⟩]
    ∧ RTask.tokenStatus ⟨createSpec, createSpec.bodyLen, some TaskTermination.normal⟩
        = TokenStatus.dropped := by
  refine ⟨?_, rfl, rfl, ?_, rfl, rfl⟩
  · exact Relation.ReflTransGen.head
      (AStep.recv_request createInit createSpec [] rfl rfl)
      (Relation.ReflTransGen.head (AStep.spawn_task _ createSpec rfl)
        (Relation.ReflTransGen.head
          (AStep.task_step _ 0 ⟨createSpec, 0, none⟩ rfl rfl (by decide) (by decide))
          Relation.ReflTransGen.refl))
  · exact Relation.ReflTransGen.head
      (AStep.task_return createMid 0 ⟨createSpec, 1, none⟩ rfl rfl rfl)
      Relation.ReflTransGen.refl

/-- C3 (amended): the `CreateTurtle` handler is never given the token sender,
    so the token never fires at all; the sender is dropped only when the whole
    request pipeline completes, and only then does the dispatcher's await on
    the token receiver complete. -/
theorem C3_create_turtle_token_never_fires :
    tokenPassedToHandler ClientRequest.CreateTurtle = false
    ∧ (∀ tk : RTask, WFSpec tk.spec →
        tk.spec.request = ClientRequest.CreateTurtle →
        tk.tokenStatus ≠ TokenStatus.fired)
    ∧ (∀ cfg cfg' : SConfig, ∀ k : Nat, ∀ tk : RTask,
        AStep cfg cfg' → cfg.disp = DispState.waitingOn k →
        cfg.tasks.get? k = some tk → WFSpec tk.spec →
        tk.spec.request = ClientRequest.CreateTurtle →
        cfg'.disp = DispState.selecting → tk.term.isSome = true) := by
  refine ⟨rfl, ?_, ?_⟩
  · intro tk hwf hreq
    exact tokenStatus_ne_fired_of_fireAt_none
      (fireAt_none_of_no_token hwf (by rw [hreq]; rfl))
  · intro cfg cfg' k tk hstep hd hk hwf hreq hd'
    obtain ⟨tk2, hk2, ht2⟩ := wait_to_select_inv hstep hd hd'
    rw [hk] at hk2
    cases hk2
    exact term_isSome_of_tokenStatus
      (fireAt_none_of_no_token hwf (by rw [hreq]; rfl)) ht2

/-- C3 witness: the amended statement applied to a concrete running and a
    concrete finished `CreateTurtle` task. -/
theorem C3_create_turtle_token_never_fires_witness :
    RTask.tokenStatus ⟨createSpec, 1, none⟩ ≠ TokenStatus.fired
    ∧ (⟨createSpec, 1, some TaskTermination.normal⟩ : RTask).term.isSome = true := by
  have h := C3_create_turtle_token_never_fires
  refine ⟨h.2.1 ⟨createSpec, 1, none⟩ (fun j hj => Option.noConfusion hj) rfl, ?_⟩
  exact h.2.2 createDoneCfg { createDoneCfg with disp := DispState.selecting } 0
    ⟨createSpec, 1, some TaskTermination.normal⟩
    (AStep.token_observed createDoneCfg 0 ⟨createSpec, 1, some .normal⟩ rfl rfl
      (by decide))
    rfl rfl (fun j hj => Option.noConfusion hj) rfl rfl

/-- C4 counterexample: a reply-serialization failure (`IpcChannelError`)
    panics the spawned task, but the process keeps serving: starting from
    `ipcFailInit`, after the failing task panicked the dispatcher observes the
    dropped token, receives the next pending request and spawns it — refuting
    that the failure is a fatal abort of the whole process. -/
theorem C4_counterexample :
    run_request_outcome (.error (.IpcChannelError "os error"))
      = TaskTermination.panicked ("Error while serializing response: " ++ "os error")
    ∧ Relation.ReflTransGen AStep ipcFailInit ipcFailFin
    ∧ ipcFailFin.tasks.get? 0 = some
        ⟨ipcFailSpec, 0,
          some (TaskTermination.panicked
            ("Error while serializing response: " ++ "os error"))⟩
    ∧ ipcFailFin.disp = DispState.waitingOn 1
    ∧ ipcFailFin.tasks.length = 2 := by
  refine ⟨rfl, ?_, rfl, rfl, rfl⟩
  exact Relation.ReflTransGen.head
    (AStep.recv_request ipcFailInit ipcFailSpec [createSpec] rfl rfl)
    (Relation.ReflTransGen.head (AStep.spawn_task _ ipcFailSpec rfl)
      (Relation.ReflTransGen.head
        (AStep.task_return _ 0 ⟨ipcFailSpec, 0, none⟩ rfl rfl rfl)
        (Relation.ReflTransGen.head
          (AStep.token_observed _ 0
            ⟨ipcFailSpec, 0,
              some (.panicked ("Error while serializing response: " ++ "os error"))⟩
            rfl rfl (by decide))
          (Relation.ReflTransGen.head
            (AStep.recv_request _ createSpec [] rfl rfl)
            (Relation.ReflTransGen.head (AStep.spawn_task _ createSpec rfl)
              Relation.ReflTransGen.refl)))))

/-- C4 (amended): an `IpcChannelError` outcome makes `run_request` panic with
    the serialization message — fatal to that request's task — and after such
    a task panic the dispatcher is released (the unwound task dropped its
    sender) and continues the serve loop. -/
theorem C4_ipc_error_panics_task_only :
    (∀ e : String, run_request_outcome (.error (.IpcChannelError e)) =
        TaskTermination.panicked ("Error while serializing response: " ++ e))
    ∧ (∀ cfg : SConfig, ∀ k : Nat, ∀ tk : RTask, ∀ m : String,
        cfg.disp = DispState.waitingOn k → cfg.tasks.get? k = some tk →
        tk.term = some (TaskTermination.panicked m) →
        AStep cfg { cfg with disp := DispState.selecting }) := by
  refine ⟨fun e => rfl, ?_⟩
  intro cfg k tk m hd hk ht
  exact AStep.token_observed cfg k tk hd hk
    (tokenStatus_ne_unfired_of_term (by rw [ht]; rfl))

/-- C4 witness: the amended statement at a concrete panicked task. -/
theorem C4_ipc_error_panics_task_only_witness :
    run_request_outcome (.error (.IpcChannelError "os error")) =
      TaskTermination.panicked ("Error while serializing response: " ++ "os error")
    ∧ AStep ipcPanicCfg { ipcPanicCfg with disp := DispState.selecting } := by
  have h := C4_ipc_error_panics_task_only
  exact ⟨h.1 "os error",
    h.2 ipcPanicCfg 0 ⟨ipcFailSpec, 0, some (.panicked "boom")⟩ "boom" rfl rfl rfl⟩

/-- C7: a token sender dropped without firing is an implicit immediate
    proceed: `unwrap_or(())` discards the receive error, and in the
    operational model a dropped token enables exactly the same dispatcher
    step (back to the select, no panic) as a fired token. -/
theorem C7_dropped_token_is_proceed :
    (∀ r : TokenAwaitResult, token_unwrap_or r = ())
    ∧ (∀ cfg : SConfig, ∀ k : Nat, ∀ tk : RTask,
        cfg.disp = DispState.waitingOn k → cfg.tasks.get? k = some tk →
        tk.tokenStatus = TokenStatus.dropped →
        AStep cfg { cfg with disp := DispState.selecting })
    ∧ (∀ cfg : SConfig, ∀ k : Nat, ∀ tk : RTask,
        cfg.disp = DispState.waitingOn k → cfg.tasks.get? k = some tk →
        tk.tokenStatus = TokenStatus.fired →
        AStep cfg { cfg with disp := DispState.selecting }) := by
  refine ⟨fun r => rfl, ?_, ?_⟩ <;>
    exact fun cfg k tk hd hk ht =>
      AStep.token_observed cfg k tk hd hk (by rw [ht]; decide)

/-- C7 witness: the dropped-token proceed step at a finished `PollEvent`
    task whose sender was dropped at return. -/
theorem C7_dropped_token_is_proceed_witness :
    AStep pollDoneCfg { pollDoneCfg with disp := DispState.selecting } :=
  C7_dropped_token_is_proceed.2.1 pollDoneCfg 0 ⟨pollSpec, 2, some .normal⟩
    rfl rfl rfl

/-- C10: the shutdown signal is only observed at the top of the loop: from
    the received position the dispatcher's only possible move is to spawn the
    request and await its token (and that move is always enabled), and the
    stopped state is only ever entered from the select position. -/
theorem C10_shutdown_only_at_loop_top :
    (∀ cfg cfg' : SConfig, ∀ t : TaskSpec, AStep cfg cfg' →
        cfg.disp = DispState.received t →
        cfg'.disp = DispState.received t ∨
          (cfg'.disp = DispState.waitingOn cfg.tasks.length ∧
            cfg'.tasks = cfg.tasks ++ [⟨t, 0, none⟩]))
    ∧ (∀ cfg : SConfig, ∀ t : TaskSpec, cfg.disp = DispState.received t →
        AStep cfg { cfg with disp := DispState.waitingOn cfg.tasks.length,
                             tasks := cfg.tasks ++ [⟨t, 0, none⟩] })
    ∧ (∀ cfg cfg' : SConfig, AStep cfg cfg' → cfg'.disp = DispState.stopped →
        cfg.disp = DispState.selecting ∨ cfg.disp = DispState.stopped) := by
  refine ⟨?_, ?_, ?_⟩
  · intro cfg cfg' t h hd
    exact received_step_inv h hd
  · intro cfg t hd
    exact AStep.spawn_task cfg t hd
  · intro cfg cfg' h hd'
    exact stop_only_from_select h hd'

/-- C10 witness: with the shutdown signal already pending and a request
    received, the spawn still happens; and the stop transition taken at
    `stopCfg` starts from the select position. -/
theorem C10_shutdown_only_at_loop_top_witness :
    AStep shutdownRace shutdownRaceSpawned
    ∧ (shutdownRaceSpawned.disp = DispState.received createSpec ∨
        (shutdownRaceSpawned.disp = DispState.waitingOn shutdownRace.tasks.length ∧
          shutdownRaceSpawned.tasks = shutdownRace.tasks ++ [⟨createSpec, 0, none⟩]))
    ∧ (stopCfg.disp = DispState.selecting ∨ stopCfg.disp = DispState.stopped) := by
  have h := C10_shutdown_only_at_loop_top
  have hspawn : AStep shutdownRace shutdownRaceSpawned :=
    h.2.1 shutdownRace createSpec rfl
  exact ⟨hspawn, h.1 shutdownRace shutdownRaceSpawned createSpec hspawn rfl,
    h.2.2 stopCfg { stopCfg with disp := DispState.stopped }
      (AStep.recv_shutdown stopCfg rfl rfl) rfl⟩

/-- C5: the serve loop runs until an explicit shutdown signal or a transport
    `Disconnected`, and in those two cases breaks out of the loop without
    panicking; every other transport receive error is fatal (a panic), and a
    successfully received request is dispatched. -/
theorem C5_serve_loop_termination :
    (∀ s : Option Unit, serve_select (.shutdown s) = .breakLoop)
    ∧ serve_select (.request (.error .Disconnected)) = .breakLoop
    ∧ (∀ e : IpcError, e ≠ .Disconnected →
        serve_select (.request (.error e)) =
          .panicLoop ("unable to receive request from IPC client: " ++ ipcErrorMsg e))
    ∧ (∀ (cid : ClientId) (req : ClientRequest),
        serve_select (.request (.ok (cid, req))) = .dispatch cid req) := by
  refine ⟨fun s => rfl, rfl, ?_, fun cid req => rfl⟩
  intro e he
  cases e with
  | Bincode e => rfl
  | IoError e => rfl
  | Disconnected => exact absurd rfl he

/-- C5 witness: the panic arm evaluated at the concrete non-`Disconnected`
    error `Io("broken pipe")`. -/
theorem C5_serve_loop_termination_witness :
    serve_select (.request (.error (.IoError "broken pipe"))) =
      .panicLoop ("unable to receive request from IPC client: "
        ++ ipcErrorMsg (.IoError "broken pipe")) :=
  C5_serve_loop_termination.2.2.1 (.IoError "broken pipe") (by decide)

/-- C6: receiving the shutdown signal (`Some(())`) and observing the dropped
    sender (`None`) are matched by the same wildcard arm in `serve` and both
    break the loop: the two cases are treated identically, with no panic. -/
theorem C6_shutdown_recv_and_drop_identical :
    serve_select (.shutdown (some ())) = .breakLoop
    ∧ serve_select (.shutdown none) = .breakLoop
    ∧ serve_select (.shutdown (some ())) = serve_select (.shutdown none) :=
  ⟨rfl, rfl, rfl⟩

/-- C8: an `EventLoopClosed` handler outcome is swallowed by `run_request`:
    the task terminates normally, exactly as for a successful outcome, and
    never panics. -/
theorem C8_event_loop_closed_swallowed :
    (∀ e : Unit, run_request_outcome (.error (.EventLoopClosed e)) = .normal)
    ∧ (∀ e : Unit, run_request_outcome (.error (.EventLoopClosed e)) =
        run_request_outcome (.ok ()))
    ∧ (∀ (e : Unit) (m : String),
        run_request_outcome (.error (.EventLoopClosed e)) ≠ .panicked m) := by
  refine ⟨fun e => rfl, fun e => rfl, fun e m => ?_⟩
  intro h
  cases h

/-! ## Modelled pipeline of state-mutating handlers (spec section 4.3)

The `handlers` and `access_control` modules are not among the sources under
verification, so the behaviour of state-mutating handlers is modelled from
the spec: acquire exclusive access to the application state, apply the
mutation, fire the ordering token immediately after mutating, then perform
late work (renderer notification, reply) outside the exclusion window.  The
dispatcher follows `serve`: it spawns the next request's task only after the
previous request's token resolved. -/

/-- Modelled from the spec: a configuration for one connection issuing a
    sequence of state-mutating requests.  `muts` are the mutations in receipt
    order; `pcs` holds one phase per spawned task, in spawn (= receipt)
    order: 0 spawned, 1 holds the exclusive gate, 2 mutation applied and gate
    released, 3 ordering token fired, 4 late work done.  `gate` is the
    exclusive application-state gate, `waiting` says the dispatcher is
    awaiting the latest request's token, `app` is the application state. -/
structure MConfig (σ : Type) where
  muts : List (σ → σ)
  pcs : List Nat
  gate : Option Nat
  waiting : Bool
  app : σ

/-- Modelled from the spec: the small-step relation of the dispatcher and the
    spawned mutating-handler pipelines.  The dispatcher spawns the next
    request only when not awaiting a token (`spawn_next`) and stops awaiting
    only once the latest request's token has fired (`proceed`); each task
    acquires the gate, mutates, fires its token, then does late work. -/
inductive MStep {σ : Type} : MConfig σ → MConfig σ → Prop
  | spawn_next (cfg : MConfig σ)
      (hw : cfg.waiting = false) (hlt : cfg.pcs.length < cfg.muts.length) :
      MStep cfg { cfg with pcs := cfg.pcs ++ [0], waiting := true }
  | acquire (cfg : MConfig σ) (k : Nat)
      (hk : cfg.pcs.get? k = some 0) (hg : cfg.gate = none) :
      MStep cfg { cfg with pcs := cfg.pcs.set k 1, gate := some k }
  | mutate (cfg : MConfig σ) (k : Nat) (f : σ → σ)
      (hk : cfg.pcs.get? k = some 1) (hf : cfg.muts.get? k = some f) :
      MStep cfg { cfg with pcs := cfg.pcs.set k 2, gate := none,
                           app := f cfg.app }
  | fire_token (cfg : MConfig σ) (k : Nat)
      (hk : cfg.pcs.get? k = some 2) :
      MStep cfg { cfg with pcs := cfg.pcs.set k 3 }
  | late_work (cfg : MConfig σ) (k : Nat)
      (hk : cfg.pcs.get? k = some 3) :
      MStep cfg { cfg with pcs := cfg.pcs.set k 4 }
  | proceed (cfg : MConfig σ) (pc : Nat)
      (hw : cfg.waiting = true)
      (hl : cfg.pcs.get? (cfg.pcs.length - 1) = some pc) (hpc : 3 ≤ pc) :
      MStep cfg { cfg with waiting := false }

/-- The initial configuration: requests `muts` pending, state `s0`. -/
def minit {σ : Type} (s0 : σ) (muts : List (σ → σ)) : MConfig σ :=
  ⟨muts, [], none, false, s0⟩

/-- Every request has been spawned and has completed its entire pipeline. -/
def MComplete {σ : Type} (cfg : MConfig σ) : Prop :=
  cfg.pcs.length = cfg.muts.length ∧ ∀ pc ∈ cfg.pcs, pc = 4

/-- The dispatcher-and-pipeline invariant: requests are immutable; no more
    tasks than requests are spawned; every task but the latest has fired its
    token (hence mutated); when the dispatcher is not awaiting a token the
    latest task has fired too; the gate holder is exactly the (unique) task
    in phase 1; and the application state is the in-order fold of the first
    `m` mutations, where the mutated tasks are exactly the first `m`. -/
def MInv {σ : Type} (s0 : σ) (muts0 : List (σ → σ)) (cfg : MConfig σ) : Prop :=
  cfg.muts = muts0
  ∧ cfg.pcs.length ≤ muts0.length
  ∧ (∀ i pi, i + 1 < cfg.pcs.length → cfg.pcs.get? i = some pi → 3 ≤ pi)
  ∧ (cfg.waiting = false →
      ∀ pi, cfg.pcs.get? (cfg.pcs.length - 1) = some pi → 3 ≤ pi)
  ∧ (∀ k, cfg.gate = some k → cfg.pcs.get? k = some 1)
  ∧ (cfg.gate = none → ∀ i pi, cfg.pcs.get? i = some pi → pi ≠ 1)
  ∧ ∃ m, m ≤ cfg.pcs.length
      ∧ (∀ i pi, cfg.pcs.get? i = some pi → (2 ≤ pi ↔ i < m))
      ∧ cfg.app = List.foldl (fun s f => f s) s0 (muts0.take m)

/-- Folding one more mutation extends the in-order fold. -/
theorem foldl_take_succ {σ : Type} (l : List (σ → σ)) (m : Nat) (f : σ → σ)
    (h : l.get? m = some f) (s : σ) :
    List.foldl (fun s g => g s) s (l.take (m + 1)) =
      f (List.foldl (fun s g => g s) s (l.take m)) := by
  rw [List.take_succ]
  rw [List.get?_eq_getElem?] at h
  rw [h]
  simp

/-- The invariant holds initially. -/
theorem minv_init {σ : Type} (s0 : σ) (muts0 : List (σ → σ)) :
    MInv s0 muts0 (minit s0 muts0) := by
  refine ⟨rfl, by simp [minit], ?_, ?_, ?_, ?_, 0, ?_, ?_, by simp [minit]⟩
  · intro i pi hi hget
    simp [minit] at hi
  · intro hw pi hget
    simp [minit] at hget
  · intro k hgk
    simp [minit] at hgk
  · intro h0 i pi hget
    simp [minit] at hget
  · simp [minit]
  · intro i pi hget
    simp [minit] at hget

/-- The invariant is preserved by every step. -/
theorem minv_step {σ : Type} {s0 : σ} {muts0 : List (σ → σ)}
    {cfg cfg' : MConfig σ} (hinv : MInv s0 muts0 cfg) (hstep : MStep cfg cfg') :
    MInv s0 muts0 cfg' := by
  obtain ⟨hm, hlen, hpref, hlast, hgs, hgn, m, hmle, hmiff, happ⟩ := hinv
  cases hstep with
  | spawn_next hw hlt =>
    unfold MInv
    dsimp only
    rw [hm] at hlt
    refine ⟨hm, ?_, ?_, ?_, ?_, ?_, m, ?_, ?_, happ⟩
    · simp only [List.length_append, List.length_singleton]
      omega
    · intro i pi hi hget
      simp only [List.length_append, List.length_singleton] at hi
      have hilt : i < cfg.pcs.length := by omega
      rw [List.get?_append hilt] at hget
      by_cases hi2 : i + 1 < cfg.pcs.length
      · exact hpref i pi hi2 hget
      · have hie : i = cfg.pcs.length - 1 := by omega
        exact hlast hw pi (hie ▸ hget)
    · intro hwf
      cases hwf
    · intro k hgk
      have hgk2 := hgs k hgk
      have hklt : k < cfg.pcs.length := (List.get?_eq_some.mp hgk2).1
      rw [List.get?_append hklt]
      exact hgk2
    · intro h0 i pi hget
      by_cases hilt : i < cfg.pcs.length
      · rw [List.get?_append hilt] at hget
        exact hgn h0 i pi hget
      · by_cases hie : i = cfg.pcs.length
        · subst hie
          rw [List.get?_concat_length] at hget
          cases hget
          decide
        · have hnone : (cfg.pcs ++ [0]).length ≤ i := by
            simp only [List.length_append, List.length_singleton]
            omega
          rw [List.get?_eq_none.mpr hnone] at hget
          cases hget
    · simp only [List.length_append, List.length_singleton]
      omega
    · intro i pi hget
      by_cases hilt : i < cfg.pcs.length
      · rw [List.get?_append hilt] at hget
        exact hmiff i pi hget
      · by_cases hie : i = cfg.pcs.length
        · subst hie
          rw [List.get?_concat_length] at hget
          cases hget
          constructor
          · intro h2
            omega
          · intro him
            omega
        · have hnone : (cfg.pcs ++ [0]).length ≤ i := by
            simp only [List.length_append, List.length_singleton]
            omega
          rw [List.get?_eq_none.mpr hnone] at hget
          cases hget
  | acquire k hk hg =>
    unfold MInv
    dsimp only
    have hklt : k < cfg.pcs.length := (List.get?_eq_some.mp hk).1
    refine ⟨hm, by simp only [List.length_set]; omega, ?_, ?_, ?_, ?_,
      m, by simp only [List.length_set]; omega, ?_, happ⟩
    · intro i pi hi hget
      simp only [List.length_set] at hi
      by_cases hik : i = k
      · subst hik
        exact absurd (hpref i 0 hi hk) (by omega)
      · rw [List.get?_set_ne 1 cfg.pcs (fun h => hik h.symm)] at hget
        exact hpref i pi hi hget
    · intro hw pi hget
      simp only [List.length_set] at hget
      by_cases hik : k = cfg.pcs.length - 1
      · exact absurd (hlast hw 0 (hik ▸ hk)) (by omega)
      · rw [List.get?_set_ne 1 cfg.pcs hik] at hget
        exact hlast hw pi hget
    · intro k2 hk2
      injection hk2 with hk2e
      subst hk2e
      exact List.get?_set_eq_of_lt 1 hklt
    · intro h0
      cases h0
    · intro i pi hget
      by_cases hik : i = k
      · subst hik
        rw [List.get?_set_eq_of_lt 1 hklt] at hget
        cases hget
        have h01 := hmiff i 0 hk
        constructor
        · intro h2
          omega
        · intro him
          exact absurd (h01.mpr him) (by omega)
      · rw [List.get?_set_ne 1 cfg.pcs (fun h => hik h.symm)] at hget
        exact hmiff i pi hget
  | mutate k f hk hf =>
    unfold MInv
    dsimp only
    have hklt : k < cfg.pcs.length := (List.get?_eq_some.mp hk).1
    have hklast : k + 1 = cfg.pcs.length := by
      by_contra hne
      exact absurd (hpref k 1 (by omega) hk) (by omega)
    have hmk : m = k := by
      have hnkm : ¬ k < m := fun hkm => by
        have h21 := (hmiff k 1 hk).mpr hkm
        omega
      rcases Nat.eq_zero_or_pos k with h0 | hpos
      · omega
      · have hik : k - 1 < cfg.pcs.length := by omega
        have hgetk := List.get?_eq_get hik
        have h3 : 3 ≤ cfg.pcs.get ⟨k - 1, hik⟩ :=
          hpref (k - 1) _ (by omega) hgetk
        have hltm := (hmiff (k - 1) _ hgetk).mp (by omega)
        omega
    rw [hm] at hf
    refine ⟨hm, by simp only [List.length_set]; omega, ?_, ?_, ?_, ?_,
      m + 1, by simp only [List.length_set]; omega, ?_, ?_⟩
    · intro i pi hi hget
      simp only [List.length_set] at hi
      have hik : i ≠ k := by omega
      rw [List.get?_set_ne 2 cfg.pcs (fun h => hik h.symm)] at hget
      exact hpref i pi hi hget
    · intro hw pi hget
      have hgoal : cfg.pcs.get? (cfg.pcs.length - 1) = some 1 := by
        rw [show cfg.pcs.length - 1 = k from by omega]
        exact hk
      exact absurd (hlast hw 1 hgoal) (by omega)
    · intro k2 hk2
      cases hk2
    · intro h0 i pi hget
      by_cases hik : i = k
      · subst hik
        rw [List.get?_set_eq_of_lt 2 hklt] at hget
        cases hget
        omega
      · rw [List.get?_set_ne 2 cfg.pcs (fun h => hik h.symm)] at hget
        have hilt : i < cfg.pcs.length := (List.get?_eq_some.mp hget).1
        have h3 := hpref i pi (by omega) hget
        omega
    · intro i pi hget
      by_cases hik : i = k
      · subst hik
        rw [List.get?_set_eq_of_lt 2 hklt] at hget
        cases hget
        constructor
        · intro h2
          omega
        · intro him
          omega
      · rw [List.get?_set_ne 2 cfg.pcs (fun h => hik h.symm)] at hget
        have := hmiff i pi hget
        constructor
        · intro h2
          have := this.mp h2
          omega
        · intro him
          exact this.mpr (by omega)
    · rw [happ, hmk]
      exact (foldl_take_succ muts0 k f hf s0).symm
  | fire_token k hk =>
    unfold MInv
    dsimp only
    have hklt : k < cfg.pcs.length := (List.get?_eq_some.mp hk).1
    refine ⟨hm, by simp only [List.length_set]; omega, ?_, ?_, ?_, ?_,
      m, by simp only [List.length_set]; omega, ?_, happ⟩
    · intro i pi hi hget
      simp only [List.length_set] at hi
      by_cases hik : i = k
      · subst hik
        rw [List.get?_set_eq_of_lt 3 hklt] at hget
        cases hget
        omega
      · rw [List.get?_set_ne 3 cfg.pcs (fun h => hik h.symm)] at hget
        exact hpref i pi hi hget
    · intro hw pi hget
      simp only [List.length_set] at hget
      by_cases hik : k = cfg.pcs.length - 1
      · rw [← hik, List.get?_set_eq_of_lt 3 hklt] at hget
        cases hget
        omega
      · rw [List.get?_set_ne 3 cfg.pcs hik] at hget
        exact hlast hw pi hget
    · intro k2 hk2
      have hgk2 := hgs k2 hk2
      have hk2k : k2 ≠ k := by
        intro h
        subst h
        rw [hgk2] at hk
        cases hk
      rw [List.get?_set_ne 3 cfg.pcs (fun h => hk2k h.symm)]
      exact hgk2
    · intro h0 i pi hget
      by_cases hik : i = k
      · subst hik
        rw [List.get?_set_eq_of_lt 3 hklt] at hget
        cases hget
        omega
      · rw [List.get?_set_ne 3 cfg.pcs (fun h => hik h.symm)] at hget
        exact hgn h0 i pi hget
    · intro i pi hget
      by_cases hik : i = k
      · subst hik
        rw [List.get?_set_eq_of_lt 3 hklt] at hget
        cases hget
        have := hmiff i 2 hk
        constructor
        · intro h2
          exact this.mp (by omega)
        · intro him
          omega
      · rw [List.get?_set_ne 3 cfg.pcs (fun h => hik h.symm)] at hget
        exact hmiff i pi hget
  | late_work k hk =>
    unfold MInv
    dsimp only
    have hklt : k < cfg.pcs.length := (List.get?_eq_some.mp hk).1
    refine ⟨hm, by simp only [List.length_set]; omega, ?_, ?_, ?_, ?_,
      m, by simp only [List.length_set]; omega, ?_, happ⟩
    · intro i pi hi hget
      simp only [List.length_set] at hi
      by_cases hik : i = k
      · subst hik
        rw [List.get?_set_eq_of_lt 4 hklt] at hget
        cases hget
        omega
      · rw [List.get?_set_ne 4 cfg.pcs (fun h => hik h.symm)] at hget
        exact hpref i pi hi hget
    · intro hw pi hget
      simp only [List.length_set] at hget
      by_cases hik : k = cfg.pcs.length - 1
      · rw [← hik, List.get?_set_eq_of_lt 4 hklt] at hget
        cases hget
        omega
      · rw [List.get?_set_ne 4 cfg.pcs hik] at hget
        exact hlast hw pi hget
    · intro k2 hk2
      have hgk2 := hgs k2 hk2
      have hk2k : k2 ≠ k := by
        intro h
        subst h
        rw [hgk2] at hk
        cases hk
      rw [List.get?_set_ne 4 cfg.pcs (fun h => hk2k h.symm)]
      exact hgk2
    · intro h0 i pi hget
      by_cases hik : i = k
      · subst hik
        rw [List.get?_set_eq_of_lt 4 hklt] at hget
        cases hget
        omega
      · rw [List.get?_set_ne 4 cfg.pcs (fun h => hik h.symm)] at hget
        exact hgn h0 i pi hget
    · intro i pi hget
      by_cases hik : i = k
      · subst hik
        rw [List.get?_set_eq_of_lt 4 hklt] at hget
        cases hget
        have := hmiff i 3 hk
        constructor
        · intro h2
          exact this.mp (by omega)
        · intro him
          omega
      · rw [List.get?_set_ne 4 cfg.pcs (fun h => hik h.symm)] at hget
        exact hmiff i pi hget
  | proceed pc hw hl hpc =>
    unfold MInv
    dsimp only
    refine ⟨hm, hlen, hpref, ?_, hgs, hgn, m, hmle, hmiff, happ⟩
    intro hw2 pi hget
    rw [hl] at hget
    cases hget
    exact hpc

/-- The invariant holds in every reachable configuration. -/
theorem minv_reachable {σ : Type} {s0 : σ} {muts0 : List (σ → σ)}
    {cfg : MConfig σ}
    (h : Relation.ReflTransGen MStep (minit s0 muts0) cfg) :
    MInv s0 muts0 cfg := by
  induction h with
  | refl => exact minv_init s0 muts0
  | tail hsteps hstep ih => exact minv_step ih hstep

/-- C1: in every configuration reachable from `minit s0 muts`, (a) for any
    two state-mutating requests received in order `i < j`, if request `j` has
    begun its capture/mutation (phase 1 or later) then request `i` has
    completed its mutation (phase 2 or later); and (b) once every request's
    pipeline has completed, the application state is exactly the in-order
    fold of the mutations — receipt-order serialization regardless of
    interleaving. -/
theorem C1_receipt_order_serialization {σ : Type} (s0 : σ)
    (muts : List (σ → σ)) (cfg : MConfig σ)
    (hreach : Relation.ReflTransGen MStep (minit s0 muts) cfg) :
    (∀ i j pi pj, i < j → cfg.pcs.get? i = some pi →
        cfg.pcs.get? j = some pj → 1 ≤ pj → 2 ≤ pi)
    ∧ (MComplete cfg →
        cfg.app = List.foldl (fun s f => f s) s0 muts) := by
  obtain ⟨hm, hlen, hpref, hlast, hgs, hgn, m, hmle, hmiff, happ⟩ :=
    minv_reachable hreach
  constructor
  · intro i j pi pj hij hgi hgj hpj
    have hj : j < cfg.pcs.length := (List.get?_eq_some.mp hgj).1
    have h3 : 3 ≤ pi := hpref i pi (by omega) hgi
    omega
  · rintro ⟨hlen2, hall⟩
    have hmlen : m = cfg.pcs.length := by
      rcases Nat.eq_zero_or_pos cfg.pcs.length with h0 | hpos
      · omega
      · have hl1 : cfg.pcs.length - 1 < cfg.pcs.length := by omega
        have hgetl := List.get?_eq_get hl1
        have hmem : cfg.pcs.get ⟨cfg.pcs.length - 1, hl1⟩ ∈ cfg.pcs :=
          List.get?_mem hgetl
        have h4 := hall _ hmem
        have := (hmiff _ _ hgetl).mp (by omega)
        omega
    rw [happ, hmlen]
    rw [hm] at hlen2
    rw [hlen2, List.take_length]

/-- The two concrete mutations of the C1 witness: increment, then double. -/
def mutsW : List (Nat → Nat) := [fun n => n + 1, fun n => n * 2]

/-- The completed configuration of the C1 witness run: both pipelines done,
    state `(1 + 1) * 2 = 4` (the reversed order would give `1 * 2 + 1 = 3`). -/
def mfinW : MConfig Nat := ⟨mutsW, [4, 4], none, true, 4⟩

/-- C1 witness: a concrete interleaved run of two mutating requests from
    state 1 reaches completion with the in-order fold of the mutations. -/
theorem C1_receipt_order_serialization_witness :
    MConfig.app mfinW = List.foldl (fun s f => f s) 1 mutsW := by
  have htr : Relation.ReflTransGen MStep (minit 1 mutsW) mfinW :=
    Relation.ReflTransGen.head (MStep.spawn_next _ rfl (by decide))
      (Relation.ReflTransGen.head (MStep.acquire _ 0 rfl rfl)
        (Relation.ReflTransGen.head (MStep.mutate _ 0 (fun n => n + 1) rfl rfl)
          (Relation.ReflTransGen.head (MStep.fire_token _ 0 rfl)
            (Relation.ReflTransGen.head (MStep.proceed _ 3 rfl rfl (by decide))
              (Relation.ReflTransGen.head (MStep.spawn_next _ rfl (by decide))
                (Relation.ReflTransGen.head (MStep.late_work _ 0 rfl)
                  (Relation.ReflTransGen.head (MStep.acquire _ 1 rfl rfl)
                    (Relation.ReflTransGen.head
                      (MStep.mutate _ 1 (fun n => n * 2) rfl rfl)
                      (Relation.ReflTransGen.head (MStep.fire_token _ 1 rfl)
                        (Relation.ReflTransGen.head (MStep.late_work _ 1 rfl)
                          Relation.ReflTransGen.refl))))))))))
  exact (C1_receipt_order_serialization 1 mutsW mfinW htr).2 ⟨rfl, by decide⟩

end turtle
